import Mathlib

/-!
Shallow embedding of `src/recalbox/pm_daemon.py`, the event-driven LED daemon.

Python machine integers are arbitrary-precision, so colour channels are `Int`.
JSON values loaded from the configuration file are modelled by the inductive
type `JVal` (JSON numbers are modelled as integers, which covers every value
the claims and the configuration schema exercise).  Python exceptions raised
while resolving configuration are modelled with `Except String`; the error
string names the Python exception class.
-/

namespace PMD

/-- A colour tuple `(b, g, r, br)` as used throughout the daemon. -/
abbrev Col := Int × Int × Int × Int

/-- `NUM_LEDS = 7` (pm_daemon.py line 9). -/
def NUM_LEDS : Nat := 7

/-- `ORDER = list(range(NUM_LEDS))` (line 10). -/
def ORDER : List Nat := List.range NUM_LEDS

/-- `BRIGHT_LIMIT = 170` (line 11). -/
def BRIGHT_LIMIT : Int := 170

/-- The bytes of the fixed ASCII header `b"multiverse:data"` (line 16). -/
def HEADER_BYTES : List Int := "multiverse:data".toList.map (fun c => (c.toNat : Int))

/-- `_clamp(x, lo=0, hi=255)` (line 37): `lo if x < lo else hi if x > hi else x`. -/
def _clamp (x : Int) : Int := if x < 0 then 0 else if 255 < x then 255 else x

/-- The four bytes contributed by one tuple in `pack_colors` (line 43):
`bytes((_clamp(b), _clamp(g), _clamp(r), _clamp(br)))` for `(b,g,r,br)`. -/
def encCol (c : Col) : List Int := [_clamp c.1, _clamp c.2.1, _clamp c.2.2.1, _clamp c.2.2.2]

/-- The payload loop of `pack_colors` (lines 41-43): four clamped bytes per tuple,
appended in order. -/
def packPayload : List Col → List Int
  | [] => []
  | c :: cs => encCol c ++ packPayload cs

/-- `pack_colors(cols)` (lines 40-44): header followed by the payload. -/
def pack_colors (cols : List Col) : List Int := HEADER_BYTES ++ packPayload cols

/-- The bytes written by `send_colors(ser, cols)` (lines 46-48):
`mapped = [cols[src] if src < len(cols) else (0,0,0,0) for src in ORDER]`
then `pack_colors(mapped)`. -/
def send_colors_bytes (cols : List Col) : List Int :=
  pack_colors (ORDER.map (fun src => cols.getD src ((0, 0, 0, 0) : Col)))

/-- `all_off()` (line 50). -/
def all_off : List Col := List.replicate NUM_LEDS ((0, 0, 0, 0) : Col)

/-- `solid(b,g,r,br)` (line 51): `[(b,g,r,_clamp(min(br,BRIGHT_LIMIT)))] * NUM_LEDS`. -/
def solid (b g r br : Int) : List Col :=
  List.replicate NUM_LEDS ((b, g, r, _clamp (min br BRIGHT_LIMIT)) : Col)

/-- JSON values as loaded by `json.load`.  Numbers are modelled as integers:
the configuration schema and every claim only exercise integral numbers. -/
inductive JVal where
  | null
  | bool (b : Bool)
  | int (n : Int)
  | str (s : String)
  | arr (xs : List JVal)
  | obj (kvs : List (String × JVal))

/-- Python `dict` lookup on a JSON object's binding list (`json.load` keeps a
single binding per key, so the first binding is the binding). -/
def dictGet (kvs : List (String × JVal)) (k : String) : Option JVal := kvs.lookup k

/-- Python truthiness of a JSON value. -/
def truthy : JVal → Bool
  | .null => false
  | .bool b => b
  | .int n => n != 0
  | .str s => s != ""
  | .arr xs => !xs.isEmpty
  | .obj kvs => !kvs.isEmpty

/-- `v.get(k, dflt)`: `dict.get`, raising `AttributeError` on non-dict values. -/
def pyGet (v : JVal) (k : String) (dflt : JVal) : Except String JVal :=
  match v with
  | .obj kvs => .ok ((dictGet kvs k).getD dflt)
  | _ => .error "AttributeError"

/-- `v[k]` for a string key `k`: dict indexing raises `KeyError` when the key is
absent; strings, lists and scalars raise `TypeError` when indexed by a string. -/
def pyIndex (v : JVal) (k : String) : Except String JVal :=
  match v with
  | .obj kvs =>
      match dictGet kvs k with
      | some w => .ok w
      | none => .error "KeyError"
  | _ => .error "TypeError"

/-- Whether the character list `pat` occurs at the head of `cs`. -/
def takeEq : List Char → List Char → Bool
  | [], _ => true
  | _ :: _, [] => false
  | a :: as, b :: bs => a == b && takeEq as bs

/-- Whether `needle` occurs as a contiguous substring of `hay`. -/
def strHas (hay needle : String) : Bool :=
  (List.range (hay.toList.length + 1)).any (fun i => takeEq needle.toList (hay.toList.drop i))

/-- Python `==` between a JSON value and a string (cross-type `==` is `False`). -/
def jeqStr (w : JVal) (k : String) : Bool :=
  match w with
  | .str t => t == k
  | _ => false

/-- `k in v`: Python membership — key test on dicts, substring test on strings,
element test on lists, `TypeError` on scalars. -/
def pyContains (k : String) (v : JVal) : Except String Bool :=
  match v with
  | .obj kvs => .ok (kvs.any (fun p => p.1 == k))
  | .str s => .ok (strHas s k)
  | .arr xs => .ok (xs.any (fun w => jeqStr w k))
  | _ => .error "TypeError"

/-- ASCII value of one digit character in the given base, when it is one. -/
def digitVal (base : Nat) (c : Char) : Option Nat :=
  if '0' ≤ c ∧ c ≤ '9' then
    let v := c.toNat - '0'.toNat
    if v < base then some v else none
  else if 'a' ≤ c ∧ c ≤ 'f' then
    let v := c.toNat - 'a'.toNat + 10
    if v < base then some v else none
  else if 'A' ≤ c ∧ c ≤ 'F' then
    let v := c.toNat - 'A'.toNat + 10
    if v < base then some v else none
  else none

/-- Value of a nonempty all-digit character run in the given base. -/
def digitsToNat (base : Nat) (cs : List Char) : Option Nat :=
  match cs with
  | [] => none
  | _ =>
      cs.foldl
        (fun acc c =>
          match acc, digitVal base c with
          | some a, some d => some (a * base + d)
          | _, _ => none)
        (some 0)

/-- Strip leading and trailing whitespace, as `str.strip()` does. -/
def stripChars (cs : List Char) : List Char :=
  ((cs.dropWhile Char.isWhitespace).reverse.dropWhile Char.isWhitespace).reverse

/-- Python `int(s, base)` for bases 10 and 16 on the strings this daemon meets:
surrounding whitespace, an optional sign, then a nonempty digit run.  (Python's
digit-group underscores, base-16 `0x` markers and non-ASCII digits are not
modelled; none can occur in the two-character hex slices taken below.) -/
def pyStrToIntCore (base : Nat) (cs : List Char) : Except String Int :=
  match stripChars cs with
  | '+' :: rest =>
      match digitsToNat base rest with
      | some n => .ok (n : Int)
      | none => .error "ValueError"
  | '-' :: rest =>
      match digitsToNat base rest with
      | some n => .ok (-(n : Int))
      | none => .error "ValueError"
  | rest =>
      match digitsToNat base rest with
      | some n => .ok (n : Int)
      | none => .error "ValueError"

/-- Python `int(x)` on a JSON value: ints pass through, bools map to 0/1,
strings parse as decimal integers (`ValueError` when malformed), and the
remaining shapes raise `TypeError`. -/
def pyInt : JVal → Except String Int
  | .int n => .ok n
  | .bool b => .ok (if b then 1 else 0)
  | .str s => pyStrToIntCore 10 s.toList
  | _ => .error "TypeError"

lemma _clamp_bounds (x : Int) : 0 ≤ _clamp x ∧ _clamp x ≤ 255 := by
  unfold _clamp; split_ifs <;> omega

lemma _clamp_le_of_le {x bound : Int} (h0 : 0 ≤ bound) (h : x ≤ bound) :
    _clamp x ≤ bound := by
  unfold _clamp; split_ifs <;> omega

lemma packPayload_length (cs : List Col) : (packPayload cs).length = 4 * cs.length := by
  induction cs with
  | nil => rfl
  | cons c cs ih => simp [packPayload, encCol, ih]; ring

lemma mem_packPayload {x : Int} {cs : List Col} (hx : x ∈ packPayload cs) :
    ∃ c ∈ cs, x ∈ encCol c := by
  induction cs with
  | nil => simp [packPayload] at hx
  | cons c cs ih =>
    simp only [packPayload, List.mem_append] at hx
    rcases hx with h | h
    · exact ⟨c, List.mem_cons_self .., h⟩
    · obtain ⟨d, hd, hxd⟩ := ih h
      exact ⟨d, List.mem_cons_of_mem _ hd, hxd⟩

lemma mem_encCol_bounds {x : Int} {c : Col} (hx : x ∈ encCol c) : 0 ≤ x ∧ x ≤ 255 := by
  simp only [encCol, List.mem_cons, List.not_mem_nil, or_false] at hx
  rcases hx with h | h | h | h <;> exact h ▸ _clamp_bounds _

/-- C1: for every input list of colour tuples (channels any integer), the bytes
produced by encoding-and-sending are exactly `len(HEADER) + 4*NUM_LEDS` long,
start with the fixed ASCII header, lie in `[0,255]`, and slot `slot` carries the
four clamped bytes of `cols[ORDER[slot]]` in `(b,g,r,br)` order, with the
all-zero tuple substituted when `ORDER[slot]` is past the end of the input. -/
theorem C1_codec_frame (cols : List Col) :
    (send_colors_bytes cols).length = HEADER_BYTES.length + 4 * NUM_LEDS ∧
    (send_colors_bytes cols).take HEADER_BYTES.length = HEADER_BYTES ∧
    (∀ x ∈ send_colors_bytes cols, 0 ≤ x ∧ x ≤ 255) ∧
    ∀ slot, slot < NUM_LEDS →
      ((send_colors_bytes cols).drop (HEADER_BYTES.length + 4 * slot)).take 4 =
        encCol (cols.getD (ORDER.getD slot 0) (0, 0, 0, 0)) := by
  refine ⟨?_, ?_, ?_, ?_⟩
  · simp [send_colors_bytes, pack_colors, packPayload_length, ORDER]
  · simp [send_colors_bytes, pack_colors]
  · intro x hx
    simp only [send_colors_bytes, pack_colors, List.mem_append] at hx
    rcases hx with h | h
    · revert x; decide
    · obtain ⟨c, _, hxc⟩ := mem_packPayload h
      exact mem_encCol_bounds hxc
  · intro slot hslot
    have h7 : slot < 7 := hslot
    interval_cases slot <;> rfl

/-- Closed instance of `C1_codec_frame` at a concrete out-of-range input. -/
theorem C1_codec_frame_witness :
    ((send_colors_bytes [((300 : Int), -5, 17, 999)]).drop
        (HEADER_BYTES.length + 4 * 0)).take 4 = [255, 0, 17, 255] := by
  have h := (C1_codec_frame [((300 : Int), -5, 17, 999)]).2.2.2 0 (by decide)
  rw [h]; rfl

/-- `s.split(":", 1)` on a character list: the characters before the first `:`
and, when a `:` occurs, the remainder after it. -/
def splitColon : List Char → List Char × Option (List Char)
  | [] => ([], none)
  | c :: cs =>
      if c = ':' then ([], some cs)
      else
        let p := splitColon cs
        (c :: p.1, p.2)

/-- `s.startswith("#") and len(s) == 7` on the characters left of the colon. -/
def hexShape (t : List Char) : Bool := t.headD ' ' == '#' && t.length == 7

/-- The `:brightness` suffix handling of lines 118-122: absent or unparsable
suffixes fall back to 64 (the `try`/bare `except` never raises). -/
def brightnessOf (suffix : Option (List Char)) : Int :=
  match suffix with
  | none => 64
  | some brs =>
      match pyStrToIntCore 10 brs with
      | .ok n => n
      | .error _ => 64

/-- Lines 118-120: `s.strip()` then `s.split(":", 1)` — the characters left of
the first colon, and the brightness suffix when a colon occurs. -/
def colorSpecParts (s0 : String) : List Char × Option (List Char) :=
  splitColon (stripChars s0.toList)

/-- The string branch of the loop body of `cols_from_layout` (lines 117-127):
strip, read an optional `:brightness` suffix, then either decode `#RRGGBB` —
where a non-hex pair raises `ValueError` — or fall back to the all-zero tuple. -/
def parseColorString (s0 : String) : Except String Col :=
  if hexShape (colorSpecParts s0).1 then do
    let r ← pyStrToIntCore 16 (((colorSpecParts s0).1.drop 1).take 2)
    let g ← pyStrToIntCore 16 (((colorSpecParts s0).1.drop 3).take 2)
    let b ← pyStrToIntCore 16 (((colorSpecParts s0).1.drop 5).take 2)
    .ok (b, g, r, _clamp (min (brightnessOf (colorSpecParts s0).2) BRIGHT_LIMIT))
  else .ok (0, 0, 0, 0)

/-- One iteration of the loop in `cols_from_layout` (lines 113-129): dict items
read their `r`, `g`, `b`, `br` fields through `int()`, string items go through
the hex parser, and every other shape appends the all-zero tuple. -/
def colFromItem : JVal → Except String Col
  | .obj d => do
      let r ← pyInt ((dictGet d "r").getD (.int 0))
      let g ← pyInt ((dictGet d "g").getD (.int 0))
      let b ← pyInt ((dictGet d "b").getD (.int 0))
      let br ← pyInt ((dictGet d "br").getD (.int 0))
      .ok (b, g, r, _clamp (min br BRIGHT_LIMIT))
  | .str s => parseColorString s
  | _ => .ok (0, 0, 0, 0)

/-- The items visited by the loop of `cols_from_layout`: `layout[i]` for
`i < min(NUM_LEDS, len(layout))`.  Lists yield their elements and strings their
single-character substrings; integer-indexing a nonempty dict raises `KeyError`
(JSON keys are strings), and `len()` raises `TypeError` on scalars. -/
def layoutItems : JVal → Except String (List JVal)
  | .arr xs => .ok (xs.take NUM_LEDS)
  | .str s => .ok ((s.toList.take NUM_LEDS).map (fun c => .str (String.mk [c])))
  | .obj kvs => if kvs.isEmpty then .ok [] else .error "KeyError"
  | _ => .error "TypeError"

/-- The accumulation loop of `cols_from_layout`: one tuple per visited item,
aborting at the first raised exception. -/
def colsFromItems : List JVal → Except String (List Col)
  | [] => .ok []
  | it :: rest => do
      let c ← colFromItem it
      let cs ← colsFromItems rest
      .ok (c :: cs)

/-- `cols_from_layout(layout)` (lines 110-131): visit the first `NUM_LEDS`
items, then zero-pad up to `NUM_LEDS`. -/
def cols_from_layout (layout : JVal) : Except String (List Col) := do
  let items ← layoutItems layout
  let cols ← colsFromItems items
  .ok (cols ++ List.replicate (NUM_LEDS - cols.length) ((0, 0, 0, 0) : Col))

/-- The in-memory configuration `_cfg`.  `load_config` always leaves a dict in
`_cfg` (a non-dict parse result makes the `keys()` call inside its `try` raise,
which resets `_cfg = {}`), so the model is the dict's binding list. -/
abbrev Cfg := List (String × JVal)

/-- `_cfg.get(k, dflt)` at the top level (always a dict, see `Cfg`). -/
def cfgGet (cfg : Cfg) (k : String) : Option JVal := cfg.lookup k

/-- `load_config()` (lines 67-75), with the outcome of opening and parsing
`systems.json` passed explicitly: `none` models a missing file or malformed
JSON.  Any failure inside the `try` — including a parse result that is not a
JSON object, whose `keys()` call raises — sets `_cfg = {}`. -/
def load_config (parsed : Option JVal) : Cfg :=
  match parsed with
  | some (.obj kvs) => kvs
  | _ => []

/-- `lookup_start_layout(system_key, rom_key)` (lines 133-139) over an explicit
configuration.  Keys are the strings produced by `get_system_key`/`get_rom_key`
(`system_key or ""` in the source only converts `None` to `""`). -/
def lookup_start_layout (cfg : Cfg) (system_key rom_key : String) :
    Except String (Option (List Col)) := do
  let syscfg := (cfgGet cfg system_key).getD (.obj [])
  let fromRom ←
    (if truthy syscfg then do
        if (← pyContains "rom_overrides" syscfg) then do
          let rov ← pyIndex syscfg "rom_overrides"
          let ro ← pyGet rov rom_key .null
          if truthy ro then do
            if (← pyContains "start_layout" ro) then do
              let lay ← pyIndex ro "start_layout"
              let cols ← cols_from_layout lay
              pure (some cols)
            else pure none
          else pure none
        else pure none
      else pure none : Except String (Option (List Col)))
  match fromRom with
  | some cols => pure (some cols)
  | none =>
      if truthy syscfg then do
        if (← pyContains "start_layout" syscfg) then do
          let lay ← pyIndex syscfg "start_layout"
          let cols ← cols_from_layout lay
          pure (some cols)
        else pure none
      else pure none

/-- `system_accent(system_key)` (lines 141-147) over an explicit configuration. -/
def system_accent (cfg : Cfg) (system_key : String) : Except String (Option Col) := do
  let syscfg := (cfgGet cfg system_key).getD (.obj [])
  let c ← pyGet syscfg "accent" .null
  match c with
  | .obj d => do
      let b ← pyInt ((dictGet d "b").getD (.int 0))
      let g ← pyInt ((dictGet d "g").getD (.int 0))
      let r ← pyInt ((dictGet d "r").getD (.int 0))
      let br ← pyInt ((dictGet d "br").getD (.int 24))
      pure (some (b, g, r, _clamp (min br BRIGHT_LIMIT)))
  | _ => pure none

/-- `default_menu_color()` (lines 149-154) over an explicit configuration. -/
def default_menu_color (cfg : Cfg) : Except String Col := do
  let d := (cfgGet cfg "defaults").getD (.obj [])
  let c ← pyGet d "menu_color" .null
  match c with
  | .obj dd => do
      let b ← pyInt ((dictGet dd "b").getD (.int 0))
      let g ← pyInt ((dictGet dd "g").getD (.int 0))
      let r ← pyInt ((dictGet dd "r").getD (.int 0))
      let br ← pyInt ((dictGet dd "br").getD (.int 24))
      pure (b, g, r, _clamp (min br BRIGHT_LIMIT))
  | _ => pure (0, 32, 64, 28)

/-- Python `str.lower()` on one ASCII character (the event names and system
identifiers this daemon compares are ASCII; non-ASCII characters pass
through unchanged in this model). -/
def lowerChar (c : Char) : Char :=
  if 'A' ≤ c ∧ c ≤ 'Z' then Char.ofNat (c.toNat + 32) else c

/-- Python `str.lower()`. -/
def strLower (s : String) : String := String.mk (s.toList.map lowerChar)

/-- `default_attract_mode()` (lines 156-157): `(d.get("attract") or
"breath").lower()`; a truthy non-string raises `AttributeError` at `.lower()`. -/
def default_attract_mode (cfg : Cfg) : Except String String := do
  let d := (cfgGet cfg "defaults").getD (.obj [])
  let a ← pyGet d "attract" .null
  match (if truthy a then a else .str "breath" : JVal) with
  | .str s => pure (strLower s)
  | _ => .error "AttributeError"

/-- One parsed event, per the wire data model: a JSON object with an optional
string event name, optional string `system`/`rom`/`rompath` identifiers and
optional integer colour fields (all absent for a malformed line). -/
structure Event where
  event : Option String := none
  system : Option String := none
  rom : Option String := none
  rompath : Option String := none
  b : Option Int := none
  g : Option Int := none
  r : Option Int := none
  br : Option Int := none

/-- The launcher-state snapshot `read_es_state` returns: `key=value` lines. -/
abbrev ESState := List (String × String)

/-- Python `x or y` where `x` is an optional string (`None` and `""` are
falsy). -/
def pyOrStr (a : Option String) (b : String) : String :=
  match a with
  | some s => if s = "" then b else s
  | none => b

/-- `get_system_key(evt)` (lines 77-81) with the snapshot passed explicitly. -/
def get_system_key (es : ESState) (evt : Event) : String :=
  let sysid := strLower (pyOrStr evt.system "")
  if sysid ≠ "" then sysid
  else strLower (pyOrStr (es.lookup "SystemId") (pyOrStr (es.lookup "System") ""))

/-- `os.path.basename`: the part after the last `/` (empty when the path ends
in a `/`). -/
def basename (p : String) : String :=
  String.mk (p.toList.foldl (fun acc c => if c = '/' then [] else acc ++ [c]) [])

/-- Index of the last `.` in a character list, when one occurs. -/
def lastDotIdx (cs : List Char) : Option Nat :=
  (List.range cs.length).foldl (fun acc i => if cs.getD i ' ' = '.' then some i else acc) none

/-- The root part of `os.path.splitext` on a basename: cut at the last `.`
unless every character before it is a `.`. -/
def splitextRoot (p : String) : String :=
  let cs := p.toList
  match lastDotIdx cs with
  | none => p
  | some i => if (cs.take i).any (fun c => c ≠ '.') then String.mk (cs.take i) else p

/-- `get_rom_key(evt)` (lines 83-88) with the snapshot passed explicitly. -/
def get_rom_key (es : ESState) (evt : Event) : String :=
  let rp := pyOrStr evt.rom (pyOrStr evt.rompath "")
  let rp := if rp = "" then (es.lookup "RomPath").getD "" else rp
  splitextRoot (basename rp)

/-- The idle generator held in `current_idle`, identified by the generator
function and the arguments it was constructed with (`idle_menu(accent)`,
lines 196-200, or `idle_attract(mode)`, lines 202-220). -/
inductive IdleGen where
  | menu (accent : Option Col)
  | attract (mode : String)

/-- The base colour `idle_menu` resolves on its first tick (line 197):
`accent if accent else default_menu_color()`. -/
def idle_menu_base (cfg : Cfg) : Option Col → Except String Col
  | some c => .ok c
  | none => default_menu_color cfg

/-- Frames of the wall-clock-dependent animation helpers, passed as an oracle:
`anim_menu_pulse` sends a clock-dependent number of breathing frames and
`fade_all` samples a float interpolation, so their frame lists enter the model
as parameters rather than as functions of the embedded state. -/
structure TimeOracle where
  pulse : Col → List (List Col)
  fade : Int → Int → Int → List (List Col)

/-- Frame `i` of `wipe_frames` (lines 97-101): LEDs `0..i` lit. -/
def wipe_frame (color : Col) (i : Nat) : List Col :=
  (List.range NUM_LEDS).map (fun k => if k ≤ i then color else (0, 0, 0, 0))

/-- `wipe_frames(color)`: `NUM_LEDS` cumulative frames. -/
def wipe_frames (color : Col) : List (List Col) :=
  (List.range NUM_LEDS).map (wipe_frame color)

/-- The wire frames of `anim_menu_pulse` (lines 160-165): breathing frames on
the accent colour, or on `default_menu_color()` when no accent, via the
oracle. -/
def anim_menu_pulse (orc : TimeOracle) (cfg : Cfg) (accent : Option Col) :
    Except String (List (List Int)) := do
  let base ← idle_menu_base cfg accent
  pure ((orc.pulse base).map send_colors_bytes)

/-- The else-branch of `anim_game_start` (lines 171-173): wipe in the accent
colour (fallback `(0,64,0,BRIGHT_LIMIT)`), then a dim solid hold. -/
def game_start_wipe (cfg : Cfg) (system_key : String) :
    Except String (List (List Int)) := do
  let acc := (← system_accent cfg system_key).getD ((0, 64, 0, BRIGHT_LIMIT) : Col)
  pure ((wipe_frames acc).map send_colors_bytes ++ [send_colors_bytes (solid 0 0 0 18)])

/-- The wire frames of `anim_game_start` (lines 167-173): the resolved layout
as a single frame when one is found and nonempty (resolved layouts always have
`NUM_LEDS` entries), else the accent wipe. -/
def anim_game_start (cfg : Cfg) (system_key rom_key : String) :
    Except String (List (List Int)) := do
  let layout ← lookup_start_layout cfg system_key rom_key
  match layout with
  | some l => if l.isEmpty then game_start_wipe cfg system_key else pure [send_colors_bytes l]
  | none => game_start_wipe cfg system_key

/-- The wire frames of `anim_game_end` (lines 175-177). -/
def anim_game_end (orc : TimeOracle) : List (List Int) :=
  (wipe_frames (64, 0, 0, BRIGHT_LIMIT)).map send_colors_bytes ++
    (orc.fade 28 10 600).map send_colors_bytes

/-- The wire frames of `anim_shutdown` (lines 179-183): three bright/dim
flashes (the `range(3)` loop unrolled), then a fade to off. -/
def anim_shutdown (orc : TimeOracle) : List (List Int) :=
  [send_colors_bytes (solid 0 0 0 BRIGHT_LIMIT), send_colors_bytes (solid 0 0 0 8),
      send_colors_bytes (solid 0 0 0 BRIGHT_LIMIT), send_colors_bytes (solid 0 0 0 8),
      send_colors_bytes (solid 0 0 0 BRIGHT_LIMIT), send_colors_bytes (solid 0 0 0 8)] ++
    (orc.fade 24 0 900).map send_colors_bytes

/-- The wire frames of `anim_reboot` (lines 185-188). -/
def anim_reboot (orc : TimeOracle) : List (List Int) :=
  (wipe_frames (0, 64, 0, BRIGHT_LIMIT)).map send_colors_bytes ++
    (wipe_frames (64, 0, 0, BRIGHT_LIMIT)).map send_colors_bytes ++
    (orc.fade 28 0 500).map send_colors_bytes

/-- The wire frames of `anim_settings_changed` (lines 190-194): three yellow
flashes (the `range(3)` loop unrolled). -/
def anim_settings_changed : List (List Int) :=
  [send_colors_bytes (solid 32 32 0 BRIGHT_LIMIT), send_colors_bytes all_off,
    send_colors_bytes (solid 32 32 0 BRIGHT_LIMIT), send_colors_bytes all_off,
    send_colors_bytes (solid 32 32 0 BRIGHT_LIMIT), send_colors_bytes all_off]

/-- One pass of the event-dispatch section of `main` (lines 311-359) on a
parsed event: the wire frames the handler sends, the new `current_idle` and the
new `_cfg` (`reload-config` re-reads the file, whose parse outcome is the
`parsed` argument).  On a raised exception the frames already written before
the raise are not reported — no claim concerns them. -/
def dispatch (orc : TimeOracle) (parsed : Option JVal) (cfg : Cfg) (es : ESState)
    (idle : IdleGen) (evt : Event) :
    Except String (List (List Int) × IdleGen × Cfg) := do
  let name := strLower (pyOrStr evt.event "")
  if name = "reload-config" then
    pure ([], idle, load_config parsed)
  else
    let syskey := get_system_key es evt
    let romkey := get_rom_key es evt
    if name = "menu" then do
      let accent ← system_accent cfg syskey
      let frames ← anim_menu_pulse orc cfg accent
      pure (frames, .menu accent, cfg)
    else if name = "game-start" then do
      let frames ← anim_game_start cfg syskey romkey
      let acc ← system_accent cfg syskey
      pure (frames, .menu acc, cfg)
    else if name = "game-end" then do
      let acc ← system_accent cfg syskey
      pure (anim_game_end orc, .menu acc, cfg)
    else if name = "shutdown" then
      pure (anim_shutdown orc, idle, cfg)
    else if name = "reboot" then
      pure (anim_reboot orc, idle, cfg)
    else if name = "settings-changed" ∨ name = "controls-changed" then
      pure (anim_settings_changed, idle, cfg)
    else if name = "attract-on" then do
      let m ← default_attract_mode cfg
      pure ([], .attract m, cfg)
    else if name = "attract-off" then do
      let acc ← system_accent cfg syskey
      pure ([], .menu acc, cfg)
    else if name = "solid" then
      pure ([send_colors_bytes
          (solid (evt.b.getD 0) (evt.g.getD 0) (evt.r.getD 0) (evt.br.getD 24))], idle, cfg)
    else if name = "off" then
      pure ([send_colors_bytes all_off], idle, cfg)
    else
      pure ([], idle, cfg)

/-- A call to `lookup_start_layout` as an operation on the daemon's module
state: the function body only reads `_cfg` (it contains no assignment), so a
call returns its result and leaves the state intact. -/
def lookup_start_layout_call (cfg : Cfg) (system_key rom_key : String) :
    Except String (Option (List Col)) × Cfg :=
  (lookup_start_layout cfg system_key rom_key, cfg)

lemma except_bind_ok {α β : Type} (a : α) (f : α → Except String β) :
    (Except.ok a >>= f) = f a := rfl

lemma except_bind_err {α β : Type} (e : String) (f : α → Except String β) :
    ((Except.error e : Except String α) >>= f) = Except.error e := rfl

lemma except_pure {α : Type} (a : α) : (pure a : Except String α) = Except.ok a := rfl

lemma isOk_iff {α : Type} {e : Except String α} : e.isOk = true ↔ ∃ a, e = .ok a := by
  cases e <;> simp [Except.isOk, Except.toBool]

lemma _clamp_idem (x : Int) : _clamp (_clamp x) = _clamp x := by
  unfold _clamp; split_ifs <;> omega

lemma _clamp_min_limit_le (br : Int) : _clamp (min br BRIGHT_LIMIT) ≤ BRIGHT_LIMIT := by
  have h := min_le_right br BRIGHT_LIMIT
  unfold _clamp BRIGHT_LIMIT at *; split_ifs <;> omega

lemma dictGet_any {kvs : List (String × JVal)} {k : String} {v : JVal}
    (h : dictGet kvs k = some v) : kvs.any (fun p => p.1 == k) = true := by
  induction kvs with
  | nil => simp [dictGet] at h
  | cons p rest ih =>
      obtain ⟨pk, pv⟩ := p
      by_cases hpk : pk = k
      · subst hpk; simp
      · have h1 : (k == pk) = false := beq_eq_false_iff_ne.mpr (Ne.symm hpk)
        have h2 : (pk == k) = false := beq_eq_false_iff_ne.mpr hpk
        simp only [dictGet, List.lookup, h1] at h
        simp only [List.any_cons, h2, Bool.false_or]
        exact ih h

lemma dictGet_ne_nil {kvs : List (String × JVal)} {k : String} {v : JVal}
    (h : dictGet kvs k = some v) : kvs.isEmpty = false := by
  cases kvs with
  | nil => simp [dictGet] at h
  | cons p rest => rfl

/-- Whether `int()` succeeds on the field `k` of a colour object (absent fields
use integer defaults, which always succeed). -/
def fieldOK (d : List (String × JVal)) (k : String) : Bool :=
  match dictGet d k with
  | some v => (pyInt v).isOk
  | none => true

/-- Whether the four numeric fields of a colour object survive `int()`. -/
def colorObjOK (d : List (String × JVal)) : Bool :=
  fieldOK d "r" && fieldOK d "g" && fieldOK d "b" && fieldOK d "br"

/-- Whether a string colour spec avoids the hex-decode raise: either it fails
the `#`-and-length-7 shape test (and falls back to zeros) or its three hex
pairs parse. -/
def strItemOK (s : String) : Bool :=
  if hexShape (colorSpecParts s).1 then
    (pyStrToIntCore 16 (((colorSpecParts s).1.drop 1).take 2)).isOk &&
      (pyStrToIntCore 16 (((colorSpecParts s).1.drop 3).take 2)).isOk &&
      (pyStrToIntCore 16 (((colorSpecParts s).1.drop 5).take 2)).isOk
  else true

/-- Whether one layout item avoids every raise in the loop body. -/
def itemOK : JVal → Bool
  | .obj d => colorObjOK d
  | .str s => strItemOK s
  | _ => true

/-- Whether a layout value avoids every raise in `cols_from_layout`. -/
def layoutOK : JVal → Bool
  | .arr xs => (xs.take NUM_LEDS).all itemOK
  | .str _ => true
  | .obj kvs => kvs.isEmpty
  | _ => false

/-- Whether a looked-up colour-spec field avoids every raise: a colour object
with `int()`-safe fields, or any non-object (which resolves to a default). -/
def colorFieldOK : Option JVal → Bool
  | some (.obj d) => colorObjOK d
  | _ => true

/-- Whether a system entry avoids every raise in `system_accent`: an object
whose `accent`, when an object, has `int()`-safe fields. -/
def sysEntryAccentOK : JVal → Bool
  | .obj kvs => colorFieldOK (dictGet kvs "accent")
  | _ => false

/-- Whether the system entry and its accent avoid every raise in
`system_accent`. -/
def accentOK (cfg : Cfg) (sk : String) : Bool :=
  sysEntryAccentOK ((cfgGet cfg sk).getD (.obj []))

/-- Whether a defaults entry avoids every raise in `default_menu_color`. -/
def defaultsMenuOK : JVal → Bool
  | .obj kvs => colorFieldOK (dictGet kvs "menu_color")
  | _ => false

/-- Whether the defaults entry and its menu colour avoid every raise in
`default_menu_color`. -/
def menuColorOK (cfg : Cfg) : Bool :=
  defaultsMenuOK ((cfgGet cfg "defaults").getD (.obj []))

lemma fieldOK_pyInt {d : List (String × JVal)} {k : String} (dflt : Int)
    (h : fieldOK d k = true) :
    ∃ n, pyInt ((dictGet d k).getD (.int dflt)) = .ok n := by
  unfold fieldOK at h
  cases hd : dictGet d k with
  | none => exact ⟨dflt, rfl⟩
  | some v =>
      rw [hd] at h
      obtain ⟨n, hn⟩ := isOk_iff.mp h
      exact ⟨n, hn⟩

lemma hexShape_iff {t : List Char} :
    hexShape t = true ↔ t.headD ' ' = '#' ∧ t.length = 7 := by
  simp [hexShape]

lemma parseColorString_ok {s : String} (h : strItemOK s = true) :
    (parseColorString s).isOk = true := by
  unfold strItemOK at h
  unfold parseColorString
  by_cases hs : hexShape (colorSpecParts s).1 = true
  · rw [if_pos hs] at h ⊢
    simp only [Bool.and_eq_true] at h
    obtain ⟨⟨h1, h2⟩, h3⟩ := h
    obtain ⟨r, hr⟩ := isOk_iff.mp h1
    obtain ⟨g, hg⟩ := isOk_iff.mp h2
    obtain ⟨b, hb⟩ := isOk_iff.mp h3
    simp only [hr, hg, hb, except_bind_ok]
    rfl
  · rw [if_neg hs] at h ⊢
    rfl

lemma colFromItem_ok {it : JVal} (h : itemOK it = true) :
    (colFromItem it).isOk = true := by
  cases it with
  | obj d =>
      simp only [itemOK, colorObjOK, Bool.and_eq_true] at h
      obtain ⟨⟨⟨hr, hg⟩, hb⟩, hbr⟩ := h
      obtain ⟨r, hr'⟩ := fieldOK_pyInt 0 hr
      obtain ⟨g, hg'⟩ := fieldOK_pyInt 0 hg
      obtain ⟨b, hb'⟩ := fieldOK_pyInt 0 hb
      obtain ⟨br, hbr'⟩ := fieldOK_pyInt 0 hbr
      simp [colFromItem, hr', hg', hb', hbr', except_bind_ok, Except.isOk, Except.toBool]
  | str s => exact parseColorString_ok h
  | null => rfl
  | bool b => rfl
  | int n => rfl
  | arr xs => rfl

lemma colsFromItems_ok {its : List JVal} (h : ∀ it ∈ its, itemOK it = true) :
    (colsFromItems its).isOk = true := by
  induction its with
  | nil => rfl
  | cons it rest ih =>
      obtain ⟨c, hc⟩ := isOk_iff.mp (colFromItem_ok (h it (List.mem_cons_self ..)))
      obtain ⟨cs, hcs⟩ := isOk_iff.mp (ih fun x hx => h x (List.mem_cons_of_mem _ hx))
      simp [colsFromItems, hc, hcs, except_bind_ok, Except.isOk, Except.toBool]

lemma splitColon_fst_length (cs : List Char) : (splitColon cs).1.length ≤ cs.length := by
  induction cs with
  | nil => simp [splitColon]
  | cons c rest ih =>
      by_cases hc : c = ':'
      · simp [splitColon, hc]
      · simp only [splitColon, if_neg hc]
        simpa using Nat.succ_le_succ ih

lemma dropWhile_length_le (p : Char → Bool) (cs : List Char) :
    (cs.dropWhile p).length ≤ cs.length := by
  induction cs with
  | nil => simp
  | cons c rest ih =>
      by_cases hc : p c
      · simp only [List.dropWhile_cons, hc, if_true]
        exact ih.trans (Nat.le_succ _)
      · simp [List.dropWhile_cons, hc]

lemma stripChars_length (cs : List Char) : (stripChars cs).length ≤ cs.length := by
  unfold stripChars
  calc ((cs.dropWhile Char.isWhitespace).reverse.dropWhile Char.isWhitespace).reverse.length
      = ((cs.dropWhile Char.isWhitespace).reverse.dropWhile Char.isWhitespace).length := by
        simp
    _ ≤ (cs.dropWhile Char.isWhitespace).reverse.length := dropWhile_length_le _ _
    _ = (cs.dropWhile Char.isWhitespace).length := by simp
    _ ≤ cs.length := dropWhile_length_le _ _

lemma strItemOK_short {s : String} (h : s.toList.length < 7) : strItemOK s = true := by
  have hlen : (colorSpecParts s).1.length < 7 :=
    lt_of_le_of_lt ((splitColon_fst_length _).trans (stripChars_length _)) h
  unfold strItemOK
  rw [if_neg]
  intro hshape
  exact absurd (hexShape_iff.mp hshape).2 (Nat.ne_of_lt hlen)

lemma layoutItems_ok {layout : JVal} (h : layoutOK layout = true) :
    ∃ its, layoutItems layout = .ok its ∧ ∀ it ∈ its, itemOK it = true := by
  cases layout with
  | arr xs =>
      refine ⟨xs.take NUM_LEDS, rfl, ?_⟩
      simpa [layoutOK, List.all_eq_true] using h
  | str s =>
      refine ⟨_, rfl, ?_⟩
      intro it hit
      simp only [List.mem_map] at hit
      obtain ⟨c, _, rfl⟩ := hit
      exact strItemOK_short (by simp [String.toList])
  | obj kvs =>
      refine ⟨[], ?_, by simp⟩
      simp only [layoutOK] at h
      simp [layoutItems, h]
  | null => exact absurd h (by simp [layoutOK])
  | bool b => exact absurd h (by simp [layoutOK])
  | int n => exact absurd h (by simp [layoutOK])

lemma cols_from_layout_ok {layout : JVal} (h : layoutOK layout = true) :
    (cols_from_layout layout).isOk = true := by
  obtain ⟨its, hits, hall⟩ := layoutItems_ok h
  obtain ⟨cs, hcs⟩ := isOk_iff.mp (colsFromItems_ok hall)
  simp [cols_from_layout, hits, hcs, except_bind_ok, Except.isOk, Except.toBool]

lemma system_accent_ok {cfg : Cfg} {sk : String} (h : accentOK cfg sk = true) :
    (system_accent cfg sk).isOk = true := by
  unfold accentOK at h
  cases hsys : (cfgGet cfg sk).getD (.obj []) with
  | obj kvs =>
      rw [hsys] at h
      simp only [sysEntryAccentOK] at h
      cases hacc : dictGet kvs "accent" with
      | none =>
          simp [system_accent, hsys, pyGet, hacc, except_bind_ok, except_pure,
            Except.isOk, Except.toBool]
      | some v =>
          rw [hacc] at h
          cases v with
          | obj d =>
              simp only [colorFieldOK, colorObjOK, Bool.and_eq_true] at h
              obtain ⟨⟨⟨hr, hg⟩, hb⟩, hbr⟩ := h
              obtain ⟨r, hr'⟩ := fieldOK_pyInt 0 hr
              obtain ⟨g, hg'⟩ := fieldOK_pyInt 0 hg
              obtain ⟨b, hb'⟩ := fieldOK_pyInt 0 hb
              obtain ⟨br, hbr'⟩ := fieldOK_pyInt 24 hbr
              simp [system_accent, hsys, pyGet, hacc, hr', hg', hb', hbr',
                except_bind_ok, except_pure, Except.isOk, Except.toBool]
          | null =>
              simp [system_accent, hsys, pyGet, hacc, except_bind_ok, except_pure,
                Except.isOk, Except.toBool]
          | bool b =>
              simp [system_accent, hsys, pyGet, hacc, except_bind_ok, except_pure,
                Except.isOk, Except.toBool]
          | int n =>
              simp [system_accent, hsys, pyGet, hacc, except_bind_ok, except_pure,
                Except.isOk, Except.toBool]
          | str t =>
              simp [system_accent, hsys, pyGet, hacc, except_bind_ok, except_pure,
                Except.isOk, Except.toBool]
          | arr xs =>
              simp [system_accent, hsys, pyGet, hacc, except_bind_ok, except_pure,
                Except.isOk, Except.toBool]
  | null => rw [hsys] at h; exact absurd h (by simp [sysEntryAccentOK])
  | bool b => rw [hsys] at h; exact absurd h (by simp [sysEntryAccentOK])
  | int n => rw [hsys] at h; exact absurd h (by simp [sysEntryAccentOK])
  | str t => rw [hsys] at h; exact absurd h (by simp [sysEntryAccentOK])
  | arr xs => rw [hsys] at h; exact absurd h (by simp [sysEntryAccentOK])

lemma default_menu_color_ok {cfg : Cfg} (h : menuColorOK cfg = true) :
    (default_menu_color cfg).isOk = true := by
  unfold menuColorOK at h
  cases hsys : (cfgGet cfg "defaults").getD (.obj []) with
  | obj kvs =>
      rw [hsys] at h
      simp only [defaultsMenuOK] at h
      cases hacc : dictGet kvs "menu_color" with
      | none =>
          simp [default_menu_color, hsys, pyGet, hacc, except_bind_ok, except_pure,
            Except.isOk, Except.toBool]
      | some v =>
          rw [hacc] at h
          cases v with
          | obj d =>
              simp only [colorFieldOK, colorObjOK, Bool.and_eq_true] at h
              obtain ⟨⟨⟨hr, hg⟩, hb⟩, hbr⟩ := h
              obtain ⟨r, hr'⟩ := fieldOK_pyInt 0 hr
              obtain ⟨g, hg'⟩ := fieldOK_pyInt 0 hg
              obtain ⟨b, hb'⟩ := fieldOK_pyInt 0 hb
              obtain ⟨br, hbr'⟩ := fieldOK_pyInt 24 hbr
              simp [default_menu_color, hsys, pyGet, hacc, hr', hg', hb', hbr',
                except_bind_ok, except_pure, Except.isOk, Except.toBool]
          | null =>
              simp [default_menu_color, hsys, pyGet, hacc, except_bind_ok, except_pure,
                Except.isOk, Except.toBool]
          | bool b =>
              simp [default_menu_color, hsys, pyGet, hacc, except_bind_ok, except_pure,
                Except.isOk, Except.toBool]
          | int n =>
              simp [default_menu_color, hsys, pyGet, hacc, except_bind_ok, except_pure,
                Except.isOk, Except.toBool]
          | str t =>
              simp [default_menu_color, hsys, pyGet, hacc, except_bind_ok, except_pure,
                Except.isOk, Except.toBool]
          | arr xs =>
              simp [default_menu_color, hsys, pyGet, hacc, except_bind_ok, except_pure,
                Except.isOk, Except.toBool]
  | null => rw [hsys] at h; exact absurd h (by simp [defaultsMenuOK])
  | bool b => rw [hsys] at h; exact absurd h (by simp [defaultsMenuOK])
  | int n => rw [hsys] at h; exact absurd h (by simp [defaultsMenuOK])
  | str t => rw [hsys] at h; exact absurd h (by simp [defaultsMenuOK])
  | arr xs => rw [hsys] at h; exact absurd h (by simp [defaultsMenuOK])

lemma parseColorString_bright {s : String} {c : Col} (h : parseColorString s = .ok c) :
    c.2.2.2 ≤ BRIGHT_LIMIT := by
  unfold parseColorString at h
  by_cases hs : hexShape (colorSpecParts s).1 = true
  · rw [if_pos hs] at h
    cases hr : pyStrToIntCore 16 (((colorSpecParts s).1.drop 1).take 2) with
    | error e => simp only [hr, except_bind_err] at h; exact Except.noConfusion h
    | ok r =>
        cases hg : pyStrToIntCore 16 (((colorSpecParts s).1.drop 3).take 2) with
        | error e =>
            simp only [hr, except_bind_ok, hg, except_bind_err] at h
            exact Except.noConfusion h
        | ok g =>
            cases hb : pyStrToIntCore 16 (((colorSpecParts s).1.drop 5).take 2) with
            | error e =>
                simp only [hr, except_bind_ok, hg, hb, except_bind_err] at h
                exact Except.noConfusion h
            | ok b =>
                simp only [hr, hg, hb, except_bind_ok] at h
                injection h with h2
                rw [← h2]
                exact _clamp_min_limit_le _
  · rw [if_neg hs] at h
    injection h with h2
    rw [← h2]
    decide

lemma colFromItem_bright {it : JVal} {c : Col} (h : colFromItem it = .ok c) :
    c.2.2.2 ≤ BRIGHT_LIMIT := by
  cases it with
  | obj d =>
      unfold colFromItem at h
      cases h1 : pyInt ((dictGet d "r").getD (.int 0)) with
      | error e => simp only [h1, except_bind_err] at h; exact Except.noConfusion h
      | ok r =>
        cases h2 : pyInt ((dictGet d "g").getD (.int 0)) with
        | error e =>
            simp only [h1, except_bind_ok, h2, except_bind_err] at h
            exact Except.noConfusion h
        | ok g =>
          cases h3 : pyInt ((dictGet d "b").getD (.int 0)) with
          | error e =>
              simp only [h1, h2, except_bind_ok, h3, except_bind_err] at h
              exact Except.noConfusion h
          | ok b =>
            cases h4 : pyInt ((dictGet d "br").getD (.int 0)) with
            | error e =>
                simp only [h1, h2, h3, except_bind_ok, h4, except_bind_err] at h
                exact Except.noConfusion h
            | ok br =>
                simp only [h1, h2, h3, h4, except_bind_ok] at h
                injection h with h5
                rw [← h5]
                exact _clamp_min_limit_le _
  | str s => exact parseColorString_bright h
  | null => injection h with h2; rw [← h2]; decide
  | bool b => injection h with h2; rw [← h2]; decide
  | int n => injection h with h2; rw [← h2]; decide
  | arr xs => injection h with h2; rw [← h2]; decide

lemma colsFromItems_bright {its : List JVal} {cs : List Col}
    (h : colsFromItems its = .ok cs) : ∀ c ∈ cs, c.2.2.2 ≤ BRIGHT_LIMIT := by
  induction its generalizing cs with
  | nil =>
      unfold colsFromItems at h
      injection h with h2
      intro c hc
      rw [← h2] at hc
      simp at hc
  | cons it rest ih =>
      unfold colsFromItems at h
      cases h1 : colFromItem it with
      | error e => simp only [h1, except_bind_err] at h; exact Except.noConfusion h
      | ok c0 =>
          cases h2 : colsFromItems rest with
          | error e =>
              simp only [h1, except_bind_ok, h2, except_bind_err] at h
              exact Except.noConfusion h
          | ok cs0 =>
              simp only [h1, h2, except_bind_ok] at h
              injection h with h3
              intro c hc
              rw [← h3] at hc
              rcases List.mem_cons.mp hc with rfl | hmem
              · exact colFromItem_bright h1
              · exact ih h2 c hmem

lemma cols_from_layout_bright {layout : JVal} {cols : List Col}
    (h : cols_from_layout layout = .ok cols) : ∀ c ∈ cols, c.2.2.2 ≤ BRIGHT_LIMIT := by
  unfold cols_from_layout at h
  cases h1 : layoutItems layout with
  | error e => simp only [h1, except_bind_err] at h; exact Except.noConfusion h
  | ok its =>
      cases h2 : colsFromItems its with
      | error e =>
          simp only [h1, except_bind_ok, h2, except_bind_err] at h
          exact Except.noConfusion h
      | ok cs =>
          simp only [h1, h2, except_bind_ok] at h
          injection h with h3
          intro c hc
          rw [← h3] at hc
          rcases List.mem_append.mp hc with hm | hm
          · exact colsFromItems_bright h2 c hm
          · rw [List.eq_of_mem_replicate hm]; decide

lemma system_accent_bright {cfg : Cfg} {sk : String} {c : Col}
    (h : system_accent cfg sk = .ok (some c)) : c.2.2.2 ≤ BRIGHT_LIMIT := by
  unfold system_accent at h
  cases h0 : pyGet ((cfgGet cfg sk).getD (.obj [])) "accent" .null with
  | error e => simp only [h0, except_bind_err] at h; exact Except.noConfusion h
  | ok v =>
      simp only [h0, except_bind_ok] at h
      cases v with
      | obj d =>
          cases h1 : pyInt ((dictGet d "b").getD (.int 0)) with
          | error e => simp only [h1, except_bind_err] at h; exact Except.noConfusion h
          | ok b =>
            cases h2 : pyInt ((dictGet d "g").getD (.int 0)) with
            | error e =>
                simp only [h1, except_bind_ok, h2, except_bind_err] at h
                exact Except.noConfusion h
            | ok g =>
              cases h3 : pyInt ((dictGet d "r").getD (.int 0)) with
              | error e =>
                  simp only [h1, h2, except_bind_ok, h3, except_bind_err] at h
                  exact Except.noConfusion h
              | ok r =>
                cases h4 : pyInt ((dictGet d "br").getD (.int 24)) with
                | error e =>
                    simp only [h1, h2, h3, except_bind_ok, h4, except_bind_err] at h
                    exact Except.noConfusion h
                | ok br =>
                    simp only [h1, h2, h3, h4, except_bind_ok, except_pure] at h
                    injection h with h5
                    injection h5 with h6
                    rw [← h6]
                    exact _clamp_min_limit_le _
      | null => simp only [except_pure] at h; injection h with h5; exact Option.noConfusion h5
      | bool b => simp only [except_pure] at h; injection h with h5; exact Option.noConfusion h5
      | int n => simp only [except_pure] at h; injection h with h5; exact Option.noConfusion h5
      | str t => simp only [except_pure] at h; injection h with h5; exact Option.noConfusion h5
      | arr xs => simp only [except_pure] at h; injection h with h5; exact Option.noConfusion h5

lemma default_menu_color_bright {cfg : Cfg} {c : Col}
    (h : default_menu_color cfg = .ok c) : c.2.2.2 ≤ BRIGHT_LIMIT := by
  unfold default_menu_color at h
  cases h0 : pyGet ((cfgGet cfg "defaults").getD (.obj [])) "menu_color" .null with
  | error e => simp only [h0, except_bind_err] at h; exact Except.noConfusion h
  | ok v =>
      simp only [h0, except_bind_ok] at h
      cases v with
      | obj d =>
          cases h1 : pyInt ((dictGet d "b").getD (.int 0)) with
          | error e => simp only [h1, except_bind_err] at h; exact Except.noConfusion h
          | ok b =>
            cases h2 : pyInt ((dictGet d "g").getD (.int 0)) with
            | error e =>
                simp only [h1, except_bind_ok, h2, except_bind_err] at h
                exact Except.noConfusion h
            | ok g =>
              cases h3 : pyInt ((dictGet d "r").getD (.int 0)) with
              | error e =>
                  simp only [h1, h2, except_bind_ok, h3, except_bind_err] at h
                  exact Except.noConfusion h
              | ok r =>
                cases h4 : pyInt ((dictGet d "br").getD (.int 24)) with
                | error e =>
                    simp only [h1, h2, h3, except_bind_ok, h4, except_bind_err] at h
                    exact Except.noConfusion h
                | ok br =>
                    simp only [h1, h2, h3, h4, except_bind_ok, except_pure] at h
                    injection h with h5
                    rw [← h5]
                    exact _clamp_min_limit_le _
      | null => simp only [except_pure] at h; injection h with h5; rw [← h5]; decide
      | bool b => simp only [except_pure] at h; injection h with h5; rw [← h5]; decide
      | int n => simp only [except_pure] at h; injection h with h5; rw [← h5]; decide
      | str t => simp only [except_pure] at h; injection h with h5; rw [← h5]; decide
      | arr xs => simp only [except_pure] at h; injection h with h5; rw [← h5]; decide

lemma system_accent_none_of {cfg : Cfg} {sk : String} {kvs : List (String × JVal)}
    (hsys : (cfgGet cfg sk).getD (.obj []) = .obj kvs)
    (hnd : ∀ d, dictGet kvs "accent" ≠ some (.obj d)) :
    system_accent cfg sk = .ok none := by
  unfold system_accent
  rw [hsys]
  cases hacc : dictGet kvs "accent" with
  | none => simp [pyGet, hacc, except_bind_ok, except_pure]
  | some v =>
      cases v with
      | obj d => exact absurd hacc (hnd d)
      | null => simp [pyGet, hacc, except_bind_ok, except_pure]
      | bool b => simp [pyGet, hacc, except_bind_ok, except_pure]
      | int n => simp [pyGet, hacc, except_bind_ok, except_pure]
      | str t => simp [pyGet, hacc, except_bind_ok, except_pure]
      | arr xs => simp [pyGet, hacc, except_bind_ok, except_pure]

lemma default_menu_color_default_of {cfg : Cfg} {kvs : List (String × JVal)}
    (hsys : (cfgGet cfg "defaults").getD (.obj []) = .obj kvs)
    (hnd : ∀ d, dictGet kvs "menu_color" ≠ some (.obj d)) :
    default_menu_color cfg = .ok (0, 32, 64, 28) := by
  unfold default_menu_color
  rw [hsys]
  cases hacc : dictGet kvs "menu_color" with
  | none => simp [pyGet, hacc, except_bind_ok, except_pure]
  | some v =>
      cases v with
      | obj d => exact absurd hacc (hnd d)
      | null => simp [pyGet, hacc, except_bind_ok, except_pure]
      | bool b => simp [pyGet, hacc, except_bind_ok, except_pure]
      | int n => simp [pyGet, hacc, except_bind_ok, except_pure]
      | str t => simp [pyGet, hacc, except_bind_ok, except_pure]
      | arr xs => simp [pyGet, hacc, except_bind_ok, except_pure]

/-- C2 is false as stated: a non-numeric accent field value makes
`system_accent` raise `ValueError` (from Python `int("x")`) instead of
degrading to a documented default, crashing the daemon's event handler. -/
theorem C2_counterexample :
    system_accent [("snes", JVal.obj [("accent", JVal.obj [("b", JVal.str "x")])])] "snes" =
      .error "ValueError" := rfl

/-- C2 (amended): the resolvers never raise and produce their documented
default / no-match results, provided the configuration values are of the
expected container shapes, numeric colour fields (where present) are values
`int()` accepts, and 7-character `#`-strings carry valid hex digits; outside
that set they can raise (see the counterexample). -/
theorem C2_resolver_no_raise :
    (∀ layout : JVal, layoutOK layout = true → (cols_from_layout layout).isOk = true) ∧
    (∀ (cfg : Cfg) (sk : String), accentOK cfg sk = true →
        (system_accent cfg sk).isOk = true) ∧
    (∀ cfg : Cfg, menuColorOK cfg = true → (default_menu_color cfg).isOk = true) ∧
    (∀ (cfg : Cfg) (sk : String) (kvs : List (String × JVal)),
        (cfgGet cfg sk).getD (.obj []) = .obj kvs →
        (∀ d, dictGet kvs "accent" ≠ some (.obj d)) →
        system_accent cfg sk = .ok none) ∧
    (∀ (cfg : Cfg) (kvs : List (String × JVal)),
        (cfgGet cfg "defaults").getD (.obj []) = .obj kvs →
        (∀ d, dictGet kvs "menu_color" ≠ some (.obj d)) →
        default_menu_color cfg = .ok (0, 32, 64, 28)) :=
  ⟨fun _ h => cols_from_layout_ok h,
   fun _ _ h => system_accent_ok h,
   fun _ h => default_menu_color_ok h,
   fun _ _ _ h1 h2 => system_accent_none_of h1 h2,
   fun _ _ h1 h2 => default_menu_color_default_of h1 h2⟩

/-- Closed instances of `C2_resolver_no_raise` at concrete configurations. -/
theorem C2_resolver_no_raise_witness :
    (cols_from_layout (JVal.arr [JVal.str "#00FF80:10"])).isOk = true ∧
    (system_accent [("snes", JVal.obj [("accent", JVal.obj [("br", JVal.int 255)])])]
        "snes").isOk = true ∧
    (default_menu_color []).isOk = true ∧
    system_accent [("snes", JVal.obj [])] "snes" = .ok none ∧
    default_menu_color [("defaults", JVal.obj [])] = .ok (0, 32, 64, 28) :=
  ⟨C2_resolver_no_raise.1 (JVal.arr [JVal.str "#00FF80:10"]) (by decide),
   C2_resolver_no_raise.2.1 [("snes", JVal.obj [("accent", JVal.obj [("br", JVal.int 255)])])]
     "snes" (by decide),
   C2_resolver_no_raise.2.2.1 [] (by decide),
   C2_resolver_no_raise.2.2.2.1 [("snes", JVal.obj [])] "snes" [] rfl
     (fun _ h => Option.noConfusion h),
   C2_resolver_no_raise.2.2.2.2 [("defaults", JVal.obj [])] [] rfl
     (fun _ h => Option.noConfusion h)⟩

/-- C3: every colour tuple a resolver builds from configuration carries a
brightness component of at most `BRIGHT_LIMIT` (170), even when the
configuration asks for more (e.g. 255). -/
theorem C3_config_bright_capped :
    (∀ (layout : JVal) (cols : List Col), cols_from_layout layout = .ok cols →
        ∀ c ∈ cols, c.2.2.2 ≤ BRIGHT_LIMIT) ∧
    (∀ (cfg : Cfg) (sk : String) (c : Col), system_accent cfg sk = .ok (some c) →
        c.2.2.2 ≤ BRIGHT_LIMIT) ∧
    (∀ (cfg : Cfg) (c : Col), default_menu_color cfg = .ok c →
        c.2.2.2 ≤ BRIGHT_LIMIT) :=
  ⟨fun _ _ h => cols_from_layout_bright h,
   fun _ _ _ h => system_accent_bright h,
   fun _ _ h => default_menu_color_bright h⟩

/-- Closed instances of `C3_config_bright_capped`: a configured 255 comes out
as 170, and the built-in default menu colour carries 28. -/
theorem C3_config_bright_capped_witness :
    (((0 : Int), (0 : Int), (0 : Int), (170 : Int)).2.2.2 ≤ BRIGHT_LIMIT) ∧
    (((0 : Int), (0 : Int), (0 : Int), (170 : Int)).2.2.2 ≤ BRIGHT_LIMIT) ∧
    (((0 : Int), (32 : Int), (64 : Int), (28 : Int)).2.2.2 ≤ BRIGHT_LIMIT) :=
  ⟨C3_config_bright_capped.1 (JVal.arr [JVal.obj [("br", JVal.int 255)]])
     ((0, 0, 0, 170) :: List.replicate 6 ((0, 0, 0, 0) : Col)) rfl
     (0, 0, 0, 170) (List.mem_cons_self ..),
   C3_config_bright_capped.2.1
     [("snes", JVal.obj [("accent", JVal.obj [("br", JVal.int 255)])])] "snes"
     (0, 0, 0, 170) rfl,
   C3_config_bright_capped.2.2 [] (0, 32, 64, 28) rfl⟩

/-- C5 is false as stated: `"#GGGGGG"` is a malformed hex string (it passes the
`#`-and-length-7 shape test but `int("GG", 16)` raises), so `cols_from_layout`
raises `ValueError` instead of producing the all-zero tuple. -/
theorem C5_counterexample :
    cols_from_layout (JVal.arr [JVal.str "#GGGGGG"]) = .error "ValueError" := rfl

/-- C5 (amended): `"#00FF80:10"` parses to `(b=0x80, g=0xFF, r=0x00, br=10)`;
a colon-free spec that decodes gets the default brightness 64; and a string
failing the `#`-and-length-7 shape test falls back to the all-zero tuple.
(A shape-passing string with non-hex digits raises — see the counterexample.) -/
theorem C5_string_color_parse :
    parseColorString "#00FF80:10" = .ok (128, 255, 0, 10) ∧
    (∀ s : String, (colorSpecParts s).2 = none → strItemOK s = true →
        hexShape (colorSpecParts s).1 = true →
        ∃ b g r : Int, parseColorString s = .ok (b, g, r, 64)) ∧
    (∀ s : String, hexShape (colorSpecParts s).1 = false →
        parseColorString s = .ok (0, 0, 0, 0)) := by
  refine ⟨rfl, ?_, ?_⟩
  · intro s hnc hOK hshape
    unfold strItemOK at hOK
    rw [if_pos hshape] at hOK
    simp only [Bool.and_eq_true] at hOK
    obtain ⟨⟨h1, h2⟩, h3⟩ := hOK
    obtain ⟨r, hr⟩ := isOk_iff.mp h1
    obtain ⟨g, hg⟩ := isOk_iff.mp h2
    obtain ⟨b, hb⟩ := isOk_iff.mp h3
    refine ⟨b, g, r, ?_⟩
    unfold parseColorString
    rw [if_pos hshape]
    simp only [hr, hg, hb, except_bind_ok]
    rw [hnc]
    rfl
  · intro s hshape
    unfold parseColorString
    rw [if_neg (by simp [hshape])]

/-- Closed instances of `C5_string_color_parse` at concrete strings. -/
theorem C5_string_color_parse_witness :
    (∃ b g r : Int, parseColorString "#0A0B0C" = .ok (b, g, r, 64)) ∧
    parseColorString "zzz" = .ok (0, 0, 0, 0) :=
  ⟨C5_string_color_parse.2.1 "#0A0B0C" rfl (by decide) rfl,
   C5_string_color_parse.2.2 "zzz" rfl⟩

lemma lookup_rom_override {cfg : Cfg} {sk rk : String}
    {sysObj roMap roEntry : List (String × JVal)} {roLayout : JVal}
    (hsys : (cfgGet cfg sk).getD (.obj []) = .obj sysObj)
    (hro : dictGet sysObj "rom_overrides" = some (.obj roMap))
    (hentry : dictGet roMap rk = some (.obj roEntry))
    (hlay : dictGet roEntry "start_layout" = some roLayout) :
    lookup_start_layout cfg sk rk = (cols_from_layout roLayout).map Option.some := by
  have hne : sysObj.isEmpty = false := dictGet_ne_nil hro
  have hne2 : roEntry.isEmpty = false := dictGet_ne_nil hlay
  have hany : sysObj.any (fun p => p.1 == "rom_overrides") = true := dictGet_any hro
  have hany2 : roEntry.any (fun p => p.1 == "start_layout") = true := dictGet_any hlay
  unfold lookup_start_layout
  rw [hsys]
  cases hcols : cols_from_layout roLayout with
  | error e =>
      simp [truthy, hne, hne2, pyContains, hany, hany2, pyIndex, hro, hentry, hlay, pyGet,
        hcols, except_bind_ok, except_bind_err, except_pure, Except.map]
  | ok cols =>
      simp [truthy, hne, hne2, pyContains, hany, hany2, pyIndex, hro, hentry, hlay, pyGet,
        hcols, except_bind_ok, except_bind_err, except_pure, Except.map]

/-- C4: when a system entry carries both its own `start_layout` and a
`rom_overrides` entry with a `start_layout` for the queried ROM key,
`lookup_start_layout` resolves through the ROM override's layout, never the
system-level one. -/
theorem C4_rom_override_precedence (cfg : Cfg) (sk rk : String)
    (sysObj roMap roEntry : List (String × JVal)) (roLayout sysLayout : JVal)
    (hsys : (cfgGet cfg sk).getD (.obj []) = .obj sysObj)
    (_hsysLay : dictGet sysObj "start_layout" = some sysLayout)
    (hro : dictGet sysObj "rom_overrides" = some (.obj roMap))
    (hentry : dictGet roMap rk = some (.obj roEntry))
    (hlay : dictGet roEntry "start_layout" = some roLayout) :
    lookup_start_layout cfg sk rk = (cols_from_layout roLayout).map Option.some :=
  lookup_rom_override hsys hro hentry hlay

/-- Closed instance of `C4_rom_override_precedence`: with a red system layout
and a blue ROM override, the override's layout is returned. -/
theorem C4_rom_override_precedence_witness :
    lookup_start_layout
      [("snes", JVal.obj
        [("start_layout", JVal.arr [JVal.str "#FF0000"]),
         ("rom_overrides", JVal.obj
           [("Foo", JVal.obj [("start_layout", JVal.arr [JVal.str "#0000FF:9"])])])])]
      "snes" "Foo" =
      .ok (some (((255 : Int), (0 : Int), (0 : Int), (9 : Int)) ::
        List.replicate 6 ((0, 0, 0, 0) : Col))) := by
  have h := C4_rom_override_precedence
    [("snes", JVal.obj
      [("start_layout", JVal.arr [JVal.str "#FF0000"]),
       ("rom_overrides", JVal.obj
         [("Foo", JVal.obj [("start_layout", JVal.arr [JVal.str "#0000FF:9"])])])])]
    "snes" "Foo" _ _ _ (JVal.arr [JVal.str "#0000FF:9"]) (JVal.arr [JVal.str "#FF0000"])
    rfl rfl rfl rfl rfl
  rw [h]
  rfl

lemma layoutItems_length_le {layout : JVal} {its : List JVal}
    (h : layoutItems layout = .ok its) : its.length ≤ NUM_LEDS := by
  cases layout with
  | arr xs =>
      injection h with h2
      rw [← h2]
      exact List.length_take_le _ _
  | str s =>
      injection h with h2
      rw [← h2]
      rw [List.length_map]
      exact List.length_take_le _ _
  | obj kvs =>
      have h' : (if kvs.isEmpty = true then (Except.ok ([] : List JVal)) else
          (Except.error "KeyError" : Except String (List JVal))) = Except.ok its := h
      by_cases hk : kvs.isEmpty = true
      · rw [if_pos hk] at h'
        injection h' with h2
        rw [← h2]
        simp [NUM_LEDS]
      · rw [if_neg hk] at h'
        exact Except.noConfusion h'
  | null => exact Except.noConfusion h
  | bool b => exact Except.noConfusion h
  | int n => exact Except.noConfusion h

lemma colsFromItems_length {its : List JVal} {cs : List Col}
    (h : colsFromItems its = .ok cs) : cs.length = its.length := by
  induction its generalizing cs with
  | nil =>
      injection h with h2
      rw [← h2]
      rfl
  | cons it rest ih =>
      unfold colsFromItems at h
      cases h1 : colFromItem it with
      | error e => simp only [h1, except_bind_err] at h; exact Except.noConfusion h
      | ok c0 =>
          cases h2 : colsFromItems rest with
          | error e =>
              simp only [h1, except_bind_ok, h2, except_bind_err] at h
              exact Except.noConfusion h
          | ok cs0 =>
              simp only [h1, h2, except_bind_ok] at h
              injection h with h3
              rw [← h3]
              simp [ih h2]

lemma cols_from_layout_length {layout : JVal} {cols : List Col}
    (h : cols_from_layout layout = .ok cols) : cols.length = NUM_LEDS := by
  unfold cols_from_layout at h
  cases h1 : layoutItems layout with
  | error e => simp only [h1, except_bind_err] at h; exact Except.noConfusion h
  | ok its =>
      cases h2 : colsFromItems its with
      | error e =>
          simp only [h1, except_bind_ok, h2, except_bind_err] at h
          exact Except.noConfusion h
      | ok cs =>
          simp only [h1, h2, except_bind_ok] at h
          injection h with h3
          rw [← h3]
          have hle : cs.length ≤ NUM_LEDS := (colsFromItems_length h2).le.trans
            (layoutItems_length_le h1)
          simp only [List.length_append, List.length_replicate]
          omega

lemma cols_from_layout_ne_nil {layout : JVal} {cols : List Col}
    (h : cols_from_layout layout = .ok cols) : cols ≠ [] := by
  have hlen := cols_from_layout_length h
  intro hnil
  rw [hnil] at hlen
  simp [NUM_LEDS] at hlen

/-- C6: on a `game-start` event whose system declares a ROM-override start
layout for the event's ROM key (the ROM path's basename without extension),
the handler sends exactly one frame — the resolved layout — and no wipe
frames, and the idle generator afterwards is `idle_menu` seeded with the
system's accent (whose `none` case resolves to the default menu colour). -/
theorem C6_game_start_override (orc : TimeOracle) (parsed : Option JVal) (cfg : Cfg)
    (es : ESState) (idle : IdleGen) (evt : Event)
    (sysObj roMap roEntry : List (String × JVal)) (roLayout : JVal) (L : List Col)
    (acc : Option Col)
    (hname : strLower (pyOrStr evt.event "") = "game-start")
    (hsys : (cfgGet cfg (get_system_key es evt)).getD (.obj []) = .obj sysObj)
    (hro : dictGet sysObj "rom_overrides" = some (.obj roMap))
    (hentry : dictGet roMap (get_rom_key es evt) = some (.obj roEntry))
    (hlay : dictGet roEntry "start_layout" = some roLayout)
    (hcols : cols_from_layout roLayout = .ok L)
    (hacc : system_accent cfg (get_system_key es evt) = .ok acc) :
    dispatch orc parsed cfg es idle evt =
      .ok ([send_colors_bytes L], IdleGen.menu acc, cfg) ∧
    (acc = none → idle_menu_base cfg acc = default_menu_color cfg) := by
  constructor
  · have hl2 : lookup_start_layout cfg (get_system_key es evt) (get_rom_key es evt) =
        .ok (some L) := by
      rw [lookup_rom_override hsys hro hentry hlay, hcols]
      rfl
    have hne := cols_from_layout_ne_nil hcols
    unfold dispatch
    rw [hname]
    simp [anim_game_start, hl2, hne, hacc, except_bind_ok, except_pure]
  · intro h
    rw [h]
    rfl

/-- Closed instance of `C6_game_start_override`: the end-to-end scenario with
`{"event":"game-start","system":"snes","rom":"/roms/snes/Foo.sfx"}` and a
configuration declaring `rom_overrides["Foo"].start_layout` and an accent. -/
theorem C6_game_start_override_witness :
    dispatch ⟨fun _ => [], fun _ _ _ => []⟩ none
      [("snes", JVal.obj
        [("accent", JVal.obj [("b", JVal.int 9)]),
         ("rom_overrides", JVal.obj
           [("Foo", JVal.obj [("start_layout", JVal.arr [JVal.str "#0000FF:9"])])])])]
      [] (IdleGen.menu none)
      { event := some "game-start", system := some "snes", rom := some "/roms/snes/Foo.sfx" } =
      .ok ([send_colors_bytes (((255 : Int), (0 : Int), (0 : Int), (9 : Int)) ::
          List.replicate 6 ((0, 0, 0, 0) : Col))],
        IdleGen.menu (some (9, 0, 0, 24)),
        [("snes", JVal.obj
          [("accent", JVal.obj [("b", JVal.int 9)]),
           ("rom_overrides", JVal.obj
             [("Foo", JVal.obj [("start_layout", JVal.arr [JVal.str "#0000FF:9"])])])])]) :=
  (C6_game_start_override ⟨fun _ => [], fun _ _ _ => []⟩ none
    [("snes", JVal.obj
      [("accent", JVal.obj [("b", JVal.int 9)]),
       ("rom_overrides", JVal.obj
         [("Foo", JVal.obj [("start_layout", JVal.arr [JVal.str "#0000FF:9"])])])])]
    [] (IdleGen.menu none)
    { event := some "game-start", system := some "snes", rom := some "/roms/snes/Foo.sfx" }
    _ _ _ (JVal.arr [JVal.str "#0000FF:9"])
    (((255 : Int), (0 : Int), (0 : Int), (9 : Int)) :: List.replicate 6 ((0, 0, 0, 0) : Col))
    (some (9, 0, 0, 24))
    rfl rfl rfl rfl rfl rfl rfl).1

/-- C7: dispatching an event whose name is not one of the recognised names
sends no frame to the serial sink and leaves the idle generator and the
configuration unchanged. -/
theorem C7_unknown_event (orc : TimeOracle) (parsed : Option JVal) (cfg : Cfg)
    (es : ESState) (idle : IdleGen) (evt : Event)
    (hname : strLower (pyOrStr evt.event "") ∉
      (["reload-config", "menu", "game-start", "game-end", "shutdown", "reboot",
        "settings-changed", "controls-changed", "attract-on", "attract-off",
        "solid", "off"] : List String)) :
    dispatch orc parsed cfg es idle evt = .ok ([], idle, cfg) := by
  simp only [List.mem_cons, List.not_mem_nil, or_false, not_or] at hname
  obtain ⟨h1, h2, h3, h4, h5, h6, h7, h8, h9, h10, h11, h12⟩ := hname
  unfold dispatch
  simp [h1, h2, h3, h4, h5, h6, h7, h8, h9, h10, h11, h12, except_pure]

/-- Closed instance of `C7_unknown_event` at the unrecognised name `bogus`. -/
theorem C7_unknown_event_witness :
    dispatch ⟨fun _ => [], fun _ _ _ => []⟩ none [] [] (IdleGen.menu none)
      { event := some "bogus" } = .ok ([], IdleGen.menu none, []) :=
  C7_unknown_event ⟨fun _ => [], fun _ _ _ => []⟩ none [] [] (IdleGen.menu none)
    { event := some "bogus" } (by decide)

/-- C8: start-layout resolution only reads the module state, so for a fixed
configuration two successive calls return identical results and leave the
configuration as it was. -/
theorem C8_lookup_idempotent (cfg : Cfg) (sk rk : String) :
    (lookup_start_layout_call cfg sk rk).1 =
      (lookup_start_layout_call (lookup_start_layout_call cfg sk rk).2 sk rk).1 ∧
    (lookup_start_layout_call (lookup_start_layout_call cfg sk rk).2 sk rk).2 = cfg :=
  ⟨rfl, rfl⟩

lemma encCol_clamp_last (b g r x : Int) :
    encCol (b, g, r, _clamp x) = encCol (b, g, r, x) := by
  simp [encCol, _clamp_idem]

lemma packPayload_congr_replicate (n : Nat) {t t' : Col} (h : encCol t = encCol t') :
    packPayload (List.replicate n t) = packPayload (List.replicate n t') := by
  induction n with
  | zero => rfl
  | succ k ih => simp [List.replicate_succ, packPayload, h, ih]

/-- C9: a `solid` event sends exactly one frame built from the event's fields;
the per-LED tuple carries `b`, `g`, `r` unchanged and brightness
`min(br, BRIGHT_LIMIT)` — the cap applies to event-supplied brightness too —
and the codec then clamps each of the four channels to `[0,255]`, so the
brightness byte is `min(br, 170)` clamped to a byte while `b`, `g`, `r` are
only byte-clamped. -/
theorem C9_solid_bright_cap (orc : TimeOracle) (parsed : Option JVal) (cfg : Cfg)
    (es : ESState) (idle : IdleGen) (evt : Event)
    (hname : strLower (pyOrStr evt.event "") = "solid") :
    dispatch orc parsed cfg es idle evt =
      .ok ([send_colors_bytes (solid (evt.b.getD 0) (evt.g.getD 0) (evt.r.getD 0)
          (evt.br.getD 24))], idle, cfg) ∧
    (∀ b g r br : Int,
        send_colors_bytes (solid b g r br) =
          HEADER_BYTES ++ packPayload (List.replicate NUM_LEDS
            ((b, g, r, min br BRIGHT_LIMIT) : Col))) ∧
    (∀ b g r br : Int,
        encCol ((b, g, r, min br BRIGHT_LIMIT) : Col) =
          [_clamp b, _clamp g, _clamp r, _clamp (min br BRIGHT_LIMIT)]) ∧
    (∀ br : Int, _clamp (min br BRIGHT_LIMIT) ≤ BRIGHT_LIMIT) := by
  refine ⟨?_, ?_, fun b g r br => rfl, fun br => _clamp_min_limit_le br⟩
  · unfold dispatch
    rw [hname]
    simp [except_pure]
  · intro b g r br
    calc send_colors_bytes (solid b g r br)
        = HEADER_BYTES ++ packPayload (List.replicate NUM_LEDS
            ((b, g, r, _clamp (min br BRIGHT_LIMIT)) : Col)) := rfl
      _ = HEADER_BYTES ++ packPayload (List.replicate NUM_LEDS
            ((b, g, r, min br BRIGHT_LIMIT) : Col)) := by
          rw [packPayload_congr_replicate NUM_LEDS (encCol_clamp_last b g r _)]

/-- Closed instance of `C9_solid_bright_cap`: a `solid` event with `br = 500`
is sent with the per-LED tuple brightness capped at 170. -/
theorem C9_solid_bright_cap_witness :
    dispatch ⟨fun _ => [], fun _ _ _ => []⟩ none [] [] (IdleGen.menu none)
      { event := some "solid", b := some 300, br := some 500 } =
      .ok ([send_colors_bytes (solid 300 0 0 500)], IdleGen.menu none, []) ∧
    send_colors_bytes (solid 300 0 0 500) =
      HEADER_BYTES ++ packPayload (List.replicate NUM_LEDS
        ((300, 0, 0, min 500 BRIGHT_LIMIT) : Col)) :=
  ⟨(C9_solid_bright_cap ⟨fun _ => [], fun _ _ _ => []⟩ none [] [] (IdleGen.menu none)
      { event := some "solid", b := some 300, br := some 500 } rfl).1,
   (C9_solid_bright_cap ⟨fun _ => [], fun _ _ _ => []⟩ none [] [] (IdleGen.menu none)
      { event := some "solid", b := some 300, br := some 500 } rfl).2.1 300 0 0 500⟩

/-- C10: a failed configuration (re)load — missing file or malformed JSON —
replaces `_cfg` by the empty mapping, discarding the previously loaded
configuration; on the empty configuration every resolver returns its built-in
default or no-match result. -/
theorem C10_failed_reload_resets (orc : TimeOracle) (cfg : Cfg) (es : ESState)
    (idle : IdleGen) (evt : Event) (sk rk : String)
    (hname : strLower (pyOrStr evt.event "") = "reload-config") :
    dispatch orc none cfg es idle evt = .ok ([], idle, []) ∧
    load_config none = [] ∧
    lookup_start_layout [] sk rk = .ok none ∧
    system_accent [] sk = .ok none ∧
    default_menu_color [] = .ok (0, 32, 64, 28) ∧
    default_attract_mode [] = .ok "breath" := by
  refine ⟨?_, rfl, rfl, rfl, rfl, rfl⟩
  unfold dispatch
  rw [hname]
  simp [load_config, except_pure]

/-- Closed instance of `C10_failed_reload_resets`: a `reload-config` event with
a failing file read wipes a previously loaded configuration. -/
theorem C10_failed_reload_resets_witness :
    dispatch ⟨fun _ => [], fun _ _ _ => []⟩ none
      [("snes", JVal.obj [("accent", JVal.obj [("b", JVal.int 9)])])] []
      (IdleGen.menu none) { event := some "reload-config" } =
      .ok ([], IdleGen.menu none, []) ∧
    lookup_start_layout [] "snes" "Foo" = .ok none :=
  ⟨(C10_failed_reload_resets ⟨fun _ => [], fun _ _ _ => []⟩
      [("snes", JVal.obj [("accent", JVal.obj [("b", JVal.int 9)])])] []
      (IdleGen.menu none) { event := some "reload-config" } "snes" "Foo" rfl).1,
   (C10_failed_reload_resets ⟨fun _ => [], fun _ _ _ => []⟩
      [("snes", JVal.obj [("accent", JVal.obj [("b", JVal.int 9)])])] []
      (IdleGen.menu none) { event := some "reload-config" } "snes" "Foo" rfl).2.2.1⟩

end PMD
